import Mathlib

/-!
# Verification of the desbordante-profiler execution core

A shallow embedding, in Lean 4, of the execution core of the
desbordante-profiler repository:

* `core/scheduler.py` — `TaskToRun`, `run_tasks` (worker-pool loop with
  per-task and global deadlines), modelled as an explicit state machine
  driven by an environment (clock readings, queue messages, process-start
  results);
* `core/rules.py` — `handle_failure` (retry/skip decisions);
* `core/manager.py` — task creation for retries, the dedup pass,
  history updates around one iteration;
* `core/history.py` — `HistoryStorage` (JSON document of run records).

Python dictionaries of run records are modelled as a structure of
`Option` fields (a missing key is `none`); `dict.update` is field-wise
"patch wins when present".  String enums (`StrEnum`) are modelled as the
strings they are in Python.  `math.ceil` over a float factor is modelled
with `ℚ` and `Int.ceil`.  Wall-clock instants are `Nat`.
-/

namespace DesbordanteProfiler

/-! ## Enums (`core/enums.py`), modelled as their `StrEnum` string values -/

namespace TaskStatus

def Success : String := "Success"

def Failure : String := "Failure"

def MemoryError : String := "MemoryError"

def Error : String := "Error"

def NotStarted : String := "NotStarted"

def StartingFailure : String := "StartingFailure"

def Running : String := "Running"

def Timeout : String := "Timeout"

def GlobalTimeout : String := "GlobalTimeout"

def Killed : String := "Killed"

def Cancelled : String := "Cancelled"

end TaskStatus

namespace Strategy

def auto_decision : String := "auto_decision"

def ask : String := "ask"

def timeout_grow : String := "timeout_grow"

def shrink_search : String := "shrink_search"

def single_run : String := "single_run"

end Strategy

namespace RulesAction

def retry : String := "retry"

def skip : String := "skip"

def prune : String := "prune"

end RulesAction

/-- The key `AlgorithmParameter.threads`. -/
def threadsKey : String := "threads"

/-! ## Parameter dictionaries

A task's `params: Dict[str, Any]` is modelled as an association list
with scalar values; Python dict equality is key-set plus value
equality, and assignment `params[k] = v` replaces an existing binding
in place or appends a new one (insertion order preserved, as for
Python dicts). -/

abbrev Params := List (String × Nat)

def Params.lookupKey (p : Params) (k : String) : Option Nat :=
  match p with
  | [] => none
  | (k', v) :: rest => if k' = k then some v else Params.lookupKey rest k

/-- Assignment `params[k] = v` on a Python dict. -/
def Params.setKey (p : Params) (k : String) (v : Nat) : Params :=
  match p with
  | [] => [(k, v)]
  | (k', v') :: rest =>
      if k' = k then (k', v) :: rest else (k', v') :: Params.setKey rest k v

/-- Python `==` on two dicts: same keys, equal values. -/
def Params.dictEq (p q : Params) : Bool :=
  p.all (fun kv => Params.lookupKey q kv.1 = some kv.2) &&
  q.all (fun kv => Params.lookupKey p kv.1 = some kv.2)

/-! ## Tables

A pandas `DataFrame` is modelled as its list of rows; `df.iloc[:n]` is
`List.take n`, `len(df)` / `df.shape[0]` is `List.length`,
`df.shape[1]` is the width of the first row. -/

abbrev DataFrame := List (List String)

def dfRows (df : DataFrame) : Nat := df.length

def dfCols (df : DataFrame) : Nat :=
  match df with
  | [] => 0
  | r :: _ => r.length

/-! ## `TaskToRun` (`core/scheduler.py`) -/

/-- The sentinel `INFINITY_TIMEOUT = 10 ** 9` — "High value instead of infinity". -/
def INFINITY_TIMEOUT : Nat := 10 ^ 9

/-- Python `timeout or INFINITY_TIMEOUT`: `None` and `0` are falsy. -/
def orInfinityTimeout (timeout : Option Nat) : Nat :=
  match timeout with
  | none => INFINITY_TIMEOUT
  | some t => if t = 0 then INFINITY_TIMEOUT else t

structure TaskToRun where
  task_id : String
  algorithm_family : String
  algorithm_name : String
  params : Params
  data : DataFrame
  rows : Nat
  cols : Nat
  data_hash : Option String
  timeout : Nat
  strategy : String
  stage : Nat
deriving DecidableEq

/-- Constructor `TaskToRun.__init__`: stores the fields, applying
`self.timeout = timeout or INFINITY_TIMEOUT`. -/
def TaskToRun.make (task_id algorithm_family algorithm_name : String)
    (params : Params) (data : DataFrame) (rows cols : Nat)
    (data_hash : Option String) (timeout : Option Nat)
    (strategy : String) (stage : Nat) : TaskToRun :=
  { task_id := task_id
    algorithm_family := algorithm_family
    algorithm_name := algorithm_name
    params := params
    data := data
    rows := rows
    cols := cols
    data_hash := data_hash
    timeout := orInfinityTimeout timeout
    strategy := strategy
    stage := stage }

/-! ## Rules engine (`core/rules.py`) -/

def MAX_STAGES : Nat := 3

/-- The two keys of the `run_info` dict passed to `handle_failure`. -/
structure RunInfoForRules where
  error_type : String
  task : TaskToRun

structure RetryParams where
  new_timeout : Option Nat
  new_dataframe : Option DataFrame
deriving DecidableEq

structure RulesDecision where
  action : String
  retry_params : Option RetryParams
deriving DecidableEq

/-- The value returned by the `click.prompt` with
`click.Choice([skip, prune, retry])` in the `ask` branch; the prompt
only ever yields one of the three choices. -/
inductive AskChoice where
  | skip
  | retry
  | prune
deriving DecidableEq

/-- Python `math.ceil` of a rational, as the natural number used for a row
count (the quantities in `rules.py` are non-negative). -/
def ceilToNat (q : ℚ) : Nat := (⌈q⌉ : ℤ).toNat

/-- Python `task.timeout or timeout_step` (`0` is falsy). -/
def orTimeoutStep (timeout timeout_step : Nat) : Nat :=
  if timeout = 0 then timeout_step else timeout

/-- Function `handle_failure(run_info, timeout_step, timeout_max, prune_factor,
min_rows)`.  The interactive `ask` branch consumes the two prompt
answers `askChoice` and `askFactor` (the prompt constrains `askFactor`
to the open interval `(0,1)`). -/
def handleFailure (runInfo : RunInfoForRules)
    (timeout_step timeout_max : Nat) (prune_factor : ℚ) (min_rows : Nat)
    (askChoice : AskChoice) (askFactor : ℚ) : RulesDecision :=
  let error := runInfo.error_type
  let task := runInfo.task
  if task.strategy = Strategy.single_run then
    { action := RulesAction.skip, retry_params := none }
  else if task.strategy = Strategy.timeout_grow ∧ error = TaskStatus.Timeout then
    let new_timeout := orTimeoutStep task.timeout timeout_step + timeout_step
    if new_timeout ≤ timeout_max then
      { action := RulesAction.retry
        retry_params := some { new_timeout := some new_timeout, new_dataframe := none } }
    else
      { action := RulesAction.skip, retry_params := none }
  else if task.strategy = Strategy.shrink_search ∧
      (error = TaskStatus.Timeout ∨ error = TaskStatus.MemoryError) then
    let df := task.data
    let possible_rows := ceilToNat ((df.length : ℚ) * prune_factor)
    if min_rows ≤ possible_rows then
      { action := RulesAction.retry
        retry_params := some { new_timeout := none, new_dataframe := some (df.take possible_rows) } }
    else
      { action := RulesAction.skip, retry_params := none }
  else if task.strategy = Strategy.auto_decision ∧
      (error = TaskStatus.MemoryError ∨ error = TaskStatus.Timeout) then
    if MAX_STAGES ≤ task.stage then
      { action := RulesAction.skip, retry_params := none }
    else
      let df := task.data
      let new_df := df.take (ceilToNat ((df.length : ℚ) * prune_factor))
      { action := RulesAction.retry
        retry_params := some { new_timeout := none, new_dataframe := some new_df } }
  else if task.strategy = Strategy.ask ∧
      (error = TaskStatus.MemoryError ∨ error = TaskStatus.Timeout) then
    match askChoice with
    | AskChoice.skip => { action := RulesAction.skip, retry_params := none }
    | AskChoice.retry =>
        { action := RulesAction.retry
          retry_params := some { new_timeout := none, new_dataframe := none } }
    | AskChoice.prune =>
        let df := task.data
        let new_df := df.take (ceilToNat ((df.length : ℚ) * askFactor))
        { action := RulesAction.retry
          retry_params := some { new_timeout := none, new_dataframe := some new_df } }
  else
    { action := RulesAction.skip, retry_params := none }

/-! ## Task creation (`core/runner.py`, `core/manager.py`) -/

/-- One entry of `profile.tasks`. -/
structure ProfileTask where
  family : String
  algorithm : String
  parameters : Params
  timeout : Option Nat

/-- Function `create_tasks_to_run(df, df_hash, strategy, profile_tasks)`; the
fresh `uuid4` task ids are supplied by `ids`, one per position. -/
def createTasksToRun (df : DataFrame) (df_hash : Option String)
    (strategy : String) (profile_tasks : List ProfileTask)
    (ids : Nat → String) : List TaskToRun :=
  (List.range profile_tasks.length).zip profile_tasks |>.map fun iv =>
    TaskToRun.make (ids iv.1) iv.2.family iv.2.algorithm iv.2.parameters
      df (dfRows df) (dfCols df) df_hash iv.2.timeout strategy 1

/-- Method `CoreManager._create_new_task(old_task, new_df, new_timeout,
stage_increment)`; the fresh `uuid4` id is supplied as `newTaskId`. -/
def createNewTask (oldTask : TaskToRun) (newDf : Option DataFrame)
    (newTimeout : Option Nat) (stageIncrement : Nat)
    (newTaskId : String) : TaskToRun :=
  let df := match newDf with
    | none => oldTask.data
    | some d => d
  TaskToRun.make newTaskId oldTask.algorithm_family oldTask.algorithm_name
    oldTask.params df (dfRows df) (dfCols df) oldTask.data_hash
    (some (match newTimeout with
      | none => oldTask.timeout
      | some t => t))
    oldTask.strategy (oldTask.stage + stageIncrement)

/-- The retry task built inside `CoreManager._handle_task_failure` when
the rules decision is `retry`: `new_df` defaults to `task.data`,
`new_timeout` defaults to `task.timeout`, `stage_increment=1`. -/
def retryTaskOf (task : TaskToRun) (decision : RulesDecision)
    (newTaskId : String) : TaskToRun :=
  let rp := match decision.retry_params with
    | none => { new_timeout := none, new_dataframe := none : RetryParams }
    | some r => r
  createNewTask task
    (some (match rp.new_dataframe with
      | none => task.data
      | some d => d))
    (some (match rp.new_timeout with
      | none => task.timeout
      | some t => t))
    1 newTaskId

/-! ## History store (`core/history.py`)

A run record is a JSON object; its possible keys are the
`DictionaryField` members.  A record is modelled as a structure of
`Option` fields: `none` is an absent key, and `run.get(k)` is the
field itself.  `run.update(patch)` takes the patch's value whenever
the patch carries the key. -/

structure RunRecord where
  run_id : Option String
  task_id : Option String
  algorithm : Option String
  algorithm_family : Option String
  params : Option Params
  data_hash : Option String
  rows : Option Nat
  cols : Option Nat
  timestamp_start : Option Nat
  timestamp_end : Option Nat
  execution_time : Option Nat
  result : Option String
  result_path : Option String
  instances : Option Nat
  error_type : Option String
  rules_decision : Option String
deriving DecidableEq

/-- The record with no keys set. -/
def emptyRecord : RunRecord :=
  { run_id := none, task_id := none, algorithm := none,
    algorithm_family := none, params := none, data_hash := none,
    rows := none, cols := none, timestamp_start := none,
    timestamp_end := none, execution_time := none, result := none,
    result_path := none, instances := none, error_type := none,
    rules_decision := none }

/-- Merge `run.update(patch)`: a key present in the patch wins. -/
def mergeRecord (r patch : RunRecord) : RunRecord :=
  { run_id := patch.run_id <|> r.run_id
    task_id := patch.task_id <|> r.task_id
    algorithm := patch.algorithm <|> r.algorithm
    algorithm_family := patch.algorithm_family <|> r.algorithm_family
    params := patch.params <|> r.params
    data_hash := patch.data_hash <|> r.data_hash
    rows := patch.rows <|> r.rows
    cols := patch.cols <|> r.cols
    timestamp_start := patch.timestamp_start <|> r.timestamp_start
    timestamp_end := patch.timestamp_end <|> r.timestamp_end
    execution_time := patch.execution_time <|> r.execution_time
    result := patch.result <|> r.result
    result_path := patch.result_path <|> r.result_path
    instances := patch.instances <|> r.instances
    error_type := patch.error_type <|> r.error_type
    rules_decision := patch.rules_decision <|> r.rules_decision }

/-- The history database: the `"runs"` list of the JSON document. -/
abbrev HistoryDb := List RunRecord

/-- Operation `add_run(run_info)`: append. -/
def addRun (db : HistoryDb) (r : RunRecord) : HistoryDb := db ++ [r]

/-- Operation `update_run(task_id, updates)`: merge the patch into the first
record with that task id (the `for ... break` loop); no-op when no
record matches. -/
def updateRun (db : HistoryDb) (tid : String) (patch : RunRecord) : HistoryDb :=
  match db with
  | [] => []
  | r :: rest =>
      if r.task_id = some tid then mergeRecord r patch :: rest
      else r :: updateRun rest tid patch

/-- The keys of the `run_info` dict that `mark_success` reads. -/
structure SuccessInfo where
  task_id : String
  timestamp_start : Nat
  execution_time : Nat
  result : String
  result_path : String
  instances : Nat

/-- The patch written by `mark_success`. -/
def successPatch (info : SuccessInfo) : RunRecord :=
  { emptyRecord with
    timestamp_end := some (info.timestamp_start + info.execution_time)
    execution_time := some info.execution_time
    result := some info.result
    result_path := some info.result_path
    instances := some info.instances }

/-- Operation `mark_success(run_info)`. -/
def markSuccess (db : HistoryDb) (info : SuccessInfo) : HistoryDb :=
  updateRun db info.task_id (successPatch info)

/-- The keys of the `run_info` dict that `mark_failure` reads
(`error_type` and `rules_decision` via `.get`). -/
structure FailureInfo where
  task_id : String
  error_type : Option String
  rules_decision : Option String

/-- The patch written by `mark_failure`
(`error_type` defaults to `"unknown"`). -/
def failurePatch (info : FailureInfo) : RunRecord :=
  { emptyRecord with
    result := some TaskStatus.Failure
    error_type := some (info.error_type.getD "unknown")
    rules_decision := info.rules_decision }

/-- Operation `mark_failure(run_info)`. -/
def markFailure (db : HistoryDb) (info : FailureInfo) : HistoryDb :=
  updateRun db info.task_id (failurePatch info)

/-- Python `run.get(params) == params` (a missing key compares
unequal to a dict). -/
def optParamsEq (stored : Option Params) (ps : Params) : Bool :=
  match stored with
  | none => false
  | some p => Params.dictEq p ps

/-- The match condition of `get_last_run_for_algo_and_data`. -/
def dedupMatch (algo : String) (ps : Params) (h : String)
    (rows cols : Nat) (r : RunRecord) : Bool :=
  r.data_hash = some h && r.algorithm = some algo &&
  optParamsEq r.params ps && r.result = some TaskStatus.Success &&
  r.rows = some rows && r.cols = some cols

/-- Lookup `get_last_run_for_algo_and_data(algo_name, params, data_hash,
rows, cols)`: `None` when the fingerprint is `None`, else the first
record of `reversed(db["runs"])` passing `dedupMatch`. -/
def getLastRunForAlgoAndData (db : HistoryDb) (algo : String)
    (ps : Params) (data_hash : Option String) (rows cols : Nat) :
    Option RunRecord :=
  match data_hash with
  | none => none
  | some h => db.reverse.find? (dedupMatch algo ps h rows cols)

/-! ### File operations of a mutation

`_save_db` opens `self.filename` for writing and `json.dump`s the
document into it.  To compare this against the spec's
write-temp-then-rename discipline, each mutation is also given as the
list of file-system operations it performs. -/

inductive FileOp where
  | writeFile (path content : String)
  | rename (src dst : String)
deriving DecidableEq

def FileOp.isRename : FileOp → Bool
  | FileOp.writeFile _ _ => false
  | FileOp.rename _ _ => true

def renderOptStr : Option String → String
  | none => "null"
  | some s => "\"" ++ s ++ "\""

def renderOptNat : Option Nat → String
  | none => "null"
  | some n => toString n

def renderParams : Option Params → String
  | none => "null"
  | some p =>
      "\x7b" ++ String.intercalate ", "
        (p.map fun kv => "\"" ++ kv.1 ++ "\": " ++ toString kv.2) ++ "\x7d"

/-- The serialized form of one run record. -/
def renderRecord (r : RunRecord) : String :=
  "\x7b\"run_id\": " ++ renderOptStr r.run_id ++
  ", \"task_id\": " ++ renderOptStr r.task_id ++
  ", \"algorithm\": " ++ renderOptStr r.algorithm ++
  ", \"algorithm_family\": " ++ renderOptStr r.algorithm_family ++
  ", \"params\": " ++ renderParams r.params ++
  ", \"data_hash\": " ++ renderOptStr r.data_hash ++
  ", \"rows\": " ++ renderOptNat r.rows ++
  ", \"cols\": " ++ renderOptNat r.cols ++
  ", \"timestamp_start\": " ++ renderOptNat r.timestamp_start ++
  ", \"timestamp_end\": " ++ renderOptNat r.timestamp_end ++
  ", \"execution_time\": " ++ renderOptNat r.execution_time ++
  ", \"result\": " ++ renderOptStr r.result ++
  ", \"result_path\": " ++ renderOptStr r.result_path ++
  ", \"instances\": " ++ renderOptNat r.instances ++
  ", \"error_type\": " ++ renderOptStr r.error_type ++
  ", \"rules_decision\": " ++ renderOptStr r.rules_decision ++ "\x7d"

/-- Serialization `json.dump` of the single JSON document with its `runs` list. -/
def dumpJson (db : HistoryDb) : String :=
  "\x7b\"runs\": [" ++ String.intercalate ", " (db.map renderRecord) ++ "]\x7d"

/-- The file operations `_save_db` performs: one direct write of the
whole document to the history file, opened with mode `"w"`. -/
def saveDbOps (filename : String) (db : HistoryDb) : List FileOp :=
  [FileOp.writeFile filename (dumpJson db)]

/-- The file writes performed by `add_run`. -/
def addRunOps (filename : String) (db : HistoryDb) (r : RunRecord) : List FileOp :=
  saveDbOps filename (addRun db r)

/-- The file writes performed by `update_run`. -/
def updateRunOps (filename : String) (db : HistoryDb) (tid : String)
    (patch : RunRecord) : List FileOp :=
  saveDbOps filename (updateRun db tid patch)

/-- The file writes performed by `mark_success`. -/
def markSuccessOps (filename : String) (db : HistoryDb)
    (info : SuccessInfo) : List FileOp :=
  saveDbOps filename (markSuccess db info)

/-- The file writes performed by `mark_failure`. -/
def markFailureOps (filename : String) (db : HistoryDb)
    (info : FailureInfo) : List FileOp :=
  saveDbOps filename (markFailure db info)

/-- Modelled from the spec: "a single JSON document … written
atomically (write to temp, rename) per mutation" — the mutation's file
operations are a write to a temporary file followed by renaming it
over the history file. -/
def AtomicTempRenameWrite (ops : List FileOp) (finalPath : String) : Prop :=
  ∃ tmp content, tmp ≠ finalPath ∧
    ops = [FileOp.writeFile tmp content, FileOp.rename tmp finalPath]

/-! ## Core manager history traffic (`core/manager.py`) -/

/-- The record `_record_task_start` appends for one task
(`result = NotStarted`; `task.timestamp_start` is the sampled clock
value `ts`). -/
def startRecordOf (runId : String) (t : TaskToRun) (ts : Nat) : RunRecord :=
  { emptyRecord with
    run_id := some runId
    task_id := some t.task_id
    algorithm := some t.algorithm_name
    algorithm_family := some t.algorithm_family
    params := some t.params
    data_hash := t.data_hash
    rows := some t.rows
    cols := some t.cols
    timestamp_start := some ts
    result := some TaskStatus.NotStarted }

/-- Method `_record_task_start(tasks)`: append one start record per task;
`times i` is the clock sample for the `i`-th task. -/
def recordTaskStart (db : HistoryDb) (runId : String)
    (tasks : List TaskToRun) (times : Nat → Nat) : HistoryDb :=
  ((List.range tasks.length).zip tasks).foldl
    (fun db iv => addRun db (startRecordOf runId iv.2 (times iv.1))) db

/-- Method `_update_tasks_params(tasks)`: overwrite each task's stored
`params` with the task object's current `params` (which, after
`run_tasks`, carry the injected `threads` entry for every launched
task). -/
def updateTasksParams (db : HistoryDb) (tasks : List TaskToRun) : HistoryDb :=
  tasks.foldl
    (fun db t => updateRun db t.task_id { emptyRecord with params := some t.params }) db

/-- Method `_check_existing_results(tasks)`: for each task, look up a previous
Success with the same five keys; on a hit, load the stored artifact
(`loadOk path` says whether `open`+`pickle.load` succeed), copy the
record under the current run id, and drop the task; on a miss or a
load failure, keep the task.  Returns the final history and the tasks
that survive for the Scheduler. -/
def checkExistingResults (db : HistoryDb) (runId : String)
    (loadOk : String → Bool) :
    List TaskToRun → HistoryDb × List TaskToRun
  | [] => (db, [])
  | t :: ts =>
      match getLastRunForAlgoAndData db t.algorithm_name t.params
        t.data_hash t.rows t.cols with
      | some rec =>
          match rec.result_path with
          | some path =>
              if loadOk path then
                let db' := addRun db { rec with run_id := some runId }
                checkExistingResults db' runId loadOk ts
              else
                let r := checkExistingResults db runId loadOk ts
                (r.1, t :: r.2)
          | none =>
              let r := checkExistingResults db runId loadOk ts
              (r.1, t :: r.2)
      | none =>
          let r := checkExistingResults db runId loadOk ts
          (r.1, t :: r.2)

/-! ## Scheduler (`core/scheduler.py`, `run_tasks`)

The loop is a state machine.  Real-time readings
(`time.monotonic()`), queue deliveries (`result_queue.get`) and
process-start results (`process.pid is None`) are inputs from an
environment: `LaunchEnv` fixes, per input index, whether the child
starts and the clock value sampled at its launch; each loop iteration
consumes one `StepEnv` holding the clock reading at the top of the
loop, the (optional) message delivered by the queue, and the clock
reading before the deadline sweep.  The list of `StepEnv`s bounds how
many iterations can run — the Python loop simply keeps iterating, so
running out of steps corresponds to observing the loop at that point;
all theorems hold for every environment. -/

/-- One entry of `final_results`: either a sentinel pair
`(TaskStatus.X, None)` or the `result_data` pair delivered by a
worker (`(family, results)` on success, `(exception_name, None)` on
failure). -/
structure SchedEntry where
  tag : String
  payload : Option String
deriving DecidableEq

def notStartedEntry : SchedEntry := { tag := TaskStatus.NotStarted, payload := none }

def runningEntry : SchedEntry := { tag := TaskStatus.Running, payload := none }

def startingFailureEntry : SchedEntry := { tag := TaskStatus.StartingFailure, payload := none }

def timeoutEntry : SchedEntry := { tag := TaskStatus.Timeout, payload := none }

def globalTimeoutEntry : SchedEntry := { tag := TaskStatus.GlobalTimeout, payload := none }

def killedEntry : SchedEntry := { tag := TaskStatus.Killed, payload := none }

def cancelledEntry : SchedEntry := { tag := TaskStatus.Cancelled, payload := none }

/-- One value of `active_processes`: the task id key together with the
task's input index and launch time (the process handle itself has no
bearing on the outcome array). -/
structure ActiveEntry where
  taskId : String
  idx : Nat
  startTime : Nat
deriving DecidableEq

/-- A message on `result_queue`:
`(task_id, status, result_data, execution_time)`; `status` is only
logged, `result` is stored wholesale, `execTime` is `None` for the
`"N/A"` string. -/
structure QueueMsg where
  taskId : String
  status : String
  result : SchedEntry
  execTime : Option Nat
deriving DecidableEq

/-- The environment inputs consumed by one iteration of the main
loop. -/
structure StepEnv where
  nowTop : Nat
  msg : Option QueueMsg
  nowSweep : Nat

/-- The environment inputs consumed at task launches. -/
structure LaunchEnv where
  startOk : Nat → Bool
  startTime : Nat → Nat

structure SchedState where
  tasks : List TaskToRun
  results : List SchedEntry
  execTimes : List (Option Nat)
  active : List ActiveEntry
  processed : Nat
  nextIdx : Nat
  globalReached : Bool

/-- Assignment `active_processes[task_id] = v` on the Python dict: replace in
place if the key exists, else append. -/
def activeInsert (l : List ActiveEntry) (e : ActiveEntry) : List ActiveEntry :=
  if l.any (fun x => x.taskId = e.taskId) then
    l.map (fun x => if x.taskId = e.taskId then e else x)
  else l ++ [e]

/-- Lookup `task_id in active_processes` / `active_processes[task_id]`. -/
def activeLookup (l : List ActiveEntry) (tid : String) : Option ActiveEntry :=
  l.find? (fun x => x.taskId = tid)

/-- Deletion `del active_processes[task_id]`. -/
def activeErase (l : List ActiveEntry) (tid : String) : List ActiveEntry :=
  l.filter (fun x => ¬ x.taskId = tid)

/-- Read of `tasks[idx].timeout` (indices produced by the loop are always in
range). -/
def timeoutOf (tasks : List TaskToRun) (idx : Nat) : Nat :=
  match tasks.get? idx with
  | some t => t.timeout
  | none => 0

/-- Read of `final_results[idx]`. -/
def SchedState.resultAt (st : SchedState) (idx : Nat) : SchedEntry :=
  st.results.getD idx notStartedEntry

/-- The inner launch loop: `while len(active_processes) < max_workers
and next_task_idx_to_launch < num_tasks`.  Before starting the child,
`task.params[threads] = threads_to_set` is written into the parent's
task object; a child whose `pid` is `None` is recorded as
`StartingFailure` and counted processed.  `fuel` bounds the launches
(the caller passes the number of tasks, which the loop can never
exceed). -/
def launchLoop (lenv : LaunchEnv) (threadsToSet maxW numTasks : Nat) :
    Nat → SchedState → SchedState
  | 0, st => st
  | fuel + 1, st =>
      if st.active.length < maxW ∧ st.nextIdx < numTasks then
        match st.tasks.get? st.nextIdx with
        | none => st
        | some task =>
            let task' := { task with params := Params.setKey task.params threadsKey threadsToSet }
            let tasks' := st.tasks.set st.nextIdx task'
            if lenv.startOk st.nextIdx then
              launchLoop lenv threadsToSet maxW numTasks fuel
                { st with
                  tasks := tasks'
                  active := activeInsert st.active
                    { taskId := task'.task_id, idx := st.nextIdx,
                      startTime := lenv.startTime st.nextIdx }
                  results := st.results.set st.nextIdx runningEntry
                  nextIdx := st.nextIdx + 1 }
            else
              launchLoop lenv threadsToSet maxW numTasks fuel
                { st with
                  tasks := tasks'
                  results := st.results.set st.nextIdx startingFailureEntry
                  execTimes := st.execTimes.set st.nextIdx none
                  processed := st.processed + 1
                  nextIdx := st.nextIdx + 1 }
      else st

/-- Handling of one `result_queue.get` outcome: a delivered message
whose task id is active stores `result_data` and the execution time at
the task's input index, reaps the child and counts it processed; a
message for an unknown id is dropped; `QueueEmpty` is a no-op. -/
def queuePhase (st : SchedState) (msg : Option QueueMsg) : SchedState :=
  match msg with
  | none => st
  | some m =>
      match activeLookup st.active m.taskId with
      | some e =>
          { st with
            results := st.results.set e.idx m.result
            execTimes := st.execTimes.set e.idx m.execTime
            active := activeErase st.active m.taskId
            processed := st.processed + 1 }
      | none => st

/-- One step of the per-task deadline sweep, for one entry of the
snapshot of `active_processes`: if the task's deadline has passed, it
is terminated, its outcome is set to `Timeout` if still
`Running`/`NotStarted`, it is counted processed and its id collected
for deletion. -/
def sweepStep (now : Nat) (acc : SchedState × List String)
    (e : ActiveEntry) : SchedState × List String :=
  let st := acc.1
  if e.startTime + timeoutOf st.tasks e.idx ≤ now then
    let st' :=
      if st.resultAt e.idx = runningEntry ∨ st.resultAt e.idx = notStartedEntry then
        { st with
          results := st.results.set e.idx timeoutEntry
          execTimes := st.execTimes.set e.idx none }
      else st
    ({ st' with processed := st'.processed + 1 }, acc.2 ++ [e.taskId])
  else acc

/-- The per-task deadline sweep: `sweepStep` over a snapshot of
`active_processes`, then deletion of the collected ids. -/
def sweepPhase (st : SchedState) (now : Nat) : SchedState :=
  let r := st.active.foldl (sweepStep now) (st, [])
  { r.1 with active := r.1.active.filter (fun e => ¬ r.2.contains e.taskId) }

/-- Whether the global deadline has passed at clock value `now`:
`global_timeout is not None and (now - overall_start_time) >
global_timeout`. -/
def globalExpired (globalTimeout : Option Nat) (startTime now : Nat) : Bool :=
  match globalTimeout with
  | none => false
  | some g => g < now - startTime

/-- The main loop (`while tasks_processed_count < num_tasks`), one
`StepEnv` per iteration: check the global deadline, launch, wait on
the queue, sweep deadlines.  When `active_processes` is empty and no
task remains to launch the loop breaks. -/
def mainLoop (lenv : LaunchEnv) (threadsToSet maxW numTasks : Nat)
    (globalTimeout : Option Nat) (startTime : Nat) :
    List StepEnv → SchedState → SchedState
  | [], st => st
  | e :: rest, st =>
      if st.processed < numTasks then
        if globalExpired globalTimeout startTime e.nowTop then
          { st with globalReached := true }
        else
          let st1 := launchLoop lenv threadsToSet maxW numTasks numTasks st
          if st1.active.isEmpty ∧ numTasks ≤ st1.nextIdx then st1
          else
            let st2 := queuePhase st1 e.msg
            let st3 := sweepPhase st2 e.nowSweep
            mainLoop lenv threadsToSet maxW numTasks globalTimeout startTime rest st3
      else st

/-- The shutdown phase after a global timeout: terminate every active
process; a still-`Running` outcome becomes `GlobalTimeout`, as would a
`NotStarted` one (the loop only visits `active_processes`); then clear
`active_processes`. -/
def shutdownGlobal (st : SchedState) : SchedState :=
  if st.globalReached then
    let st' := st.active.foldl
      (fun st e =>
        if st.resultAt e.idx = runningEntry then
          { st with
            results := st.results.set e.idx globalTimeoutEntry
            execTimes := st.execTimes.set e.idx none }
        else if st.resultAt e.idx = notStartedEntry then
          { st with
            results := st.results.set e.idx globalTimeoutEntry
            execTimes := st.execTimes.set e.idx none }
        else st) st
    { st' with active := [] }
  else st

/-- The final cleanup of unexpected survivors: any remaining active
process is terminated and a still-`Running` outcome becomes
`Killed`. -/
def finalCleanup (st : SchedState) : SchedState :=
  if st.active.isEmpty then st
  else
    st.active.foldl
      (fun st e =>
        if st.resultAt e.idx = runningEntry then
          { st with
            results := st.results.set e.idx killedEntry
            execTimes := st.execTimes.set e.idx none }
        else st) st

/-- The final sweep: outside a global timeout, a `NotStarted` outcome
(queued but never reached) is downgraded to `Cancelled`. -/
def finalSweep (numTasks : Nat) (st : SchedState) : SchedState :=
  (List.range numTasks).foldl
    (fun st i =>
      if st.resultAt i = notStartedEntry ∧ ¬ st.globalReached then
        { st with
          results := st.results.set i cancelledEntry
          execTimes := st.execTimes.set i none }
      else st) st

/-- Function `run_tasks` for a non-empty batch: the initial state, the main
loop, and the three closing phases. -/
def runTasksFull (tasks : List TaskToRun) (tryParallel : Bool)
    (workers : Nat) (globalTimeout : Option Nat) (startTime : Nat)
    (lenv : LaunchEnv) (envs : List StepEnv) : SchedState :=
  let numTasks := tasks.length
  let maxW := if tryParallel then workers else 1
  let threadsToSet := if tryParallel then 1 else workers
  let st0 : SchedState :=
    { tasks := tasks
      results := List.replicate numTasks notStartedEntry
      execTimes := List.replicate numTasks none
      active := []
      processed := 0
      nextIdx := 0
      globalReached := false }
  let stEnd := mainLoop lenv threadsToSet maxW numTasks globalTimeout startTime envs st0
  finalSweep numTasks (finalCleanup (shutdownGlobal stEnd))

/-- Function `run_tasks(tasks, try_parallel, workers, memory_limit,
global_timeout)` — `([], [])` on an empty batch, else the
`final_results` and `final_execution_time` arrays.  `memory_limit`
only feeds the per-child cap and has no bearing on the outcome
arrays. -/
def runTasks (tasks : List TaskToRun) (tryParallel : Bool)
    (workers : Nat) (memoryLimit : Nat) (globalTimeout : Option Nat)
    (startTime : Nat) (lenv : LaunchEnv) (envs : List StepEnv) :
    List SchedEntry × List (Option Nat) :=
  if tasks.length = 0 then ([], [])
  else
    let maxW := if tryParallel then workers else 1
    let _memoryPerProc := memoryLimit / maxW
    let st := runTasksFull tasks tryParallel workers globalTimeout startTime lenv envs
    (st.results, st.execTimes)

/-! ## Concrete fixtures

Small concrete tasks, histories and scheduler environments used to
instantiate the theorems below on closed inputs. -/

/-- A 4-row, 1-column table. -/
def fourRowTable : DataFrame := [["a"], ["b"], ["c"], ["d"]]

/-- A 2-row table. -/
def twoRowTable : DataFrame := [["a"], ["b"]]

/-- A 10-row table. -/
def tenRowTable : DataFrame := List.replicate 10 ["x"]

/-- A happy-path profile task: `{family: fd, algorithm: hyfd,
parameters: {}}`, no per-task timeout. -/
def happyTask : TaskToRun :=
  TaskToRun.make "task-1" "fd" "hyfd" [] fourRowTable 4 1 (some "hash-1")
    none Strategy.single_run 1

/-- A second batch member with its own id. -/
def happyTask2 : TaskToRun :=
  TaskToRun.make "task-2" "ucc" "hpivalid" [] fourRowTable 4 1 (some "hash-1")
    none Strategy.single_run 1

/-- An environment in which every child starts, at clock `0`. -/
def allStartLenv : LaunchEnv := { startOk := fun _ => true, startTime := fun _ => 0 }

/-- A 2-row `auto_decision` task at stage 1 (a first attempt). -/
def smallAutoTask : TaskToRun :=
  TaskToRun.make "auto-1" "fd" "hyfd" [] twoRowTable 2 1 (some "hash-2")
    none Strategy.auto_decision 1

/-- A 10-row `shrink_search` task. -/
def shrinkTask : TaskToRun :=
  TaskToRun.make "shrink-1" "fd" "hyfd" [] tenRowTable 10 1 (some "hash-3")
    none Strategy.shrink_search 1

/-- An `auto_decision` task at stage 2 (one retry already behind it). -/
def stage2AutoTask : TaskToRun :=
  TaskToRun.make "auto-2" "fd" "hyfd" [] tenRowTable 10 1 (some "hash-3")
    none Strategy.auto_decision 2

/-- The history of the first profiling run of `happyTask`, built by the
manager's own operations: the start record, the post-`run_tasks`
params update (the task object now carries the injected
`threads` entry, here with `threads_to_set = 4`), and the success
mark. -/
def firstRunDb : HistoryDb :=
  let db1 := recordTaskStart [] "run-1" [happyTask] (fun _ => 0)
  let launched := { happyTask with
    params := Params.setKey happyTask.params threadsKey 4 }
  let db2 := updateTasksParams db1 [launched]
  markSuccess db2
    { task_id := happyTask.task_id, timestamp_start := 0,
      execution_time := 7, result := TaskStatus.Success,
      result_path := "serialized_data/hyfd_task-1.pkl", instances := 3 }

/-- The same profile task re-created for a second run: a fresh id, the
same algorithm, parameters, fingerprint, rows and cols. -/
def rerunTask : TaskToRun :=
  TaskToRun.make "task-9" "fd" "hyfd" [] fourRowTable 4 1 (some "hash-1")
    none Strategy.single_run 1

/-- A stored Success record for `happyTask`'s five dedup keys, with
the parameters it was submitted with (no injected entries). -/
def storedSuccessRecord : RunRecord :=
  { emptyRecord with
    run_id := some "run-0"
    task_id := some "task-0"
    algorithm := some "hyfd"
    params := some []
    data_hash := some "hash-1"
    rows := some 4
    cols := some 1
    result := some TaskStatus.Success
    result_path := some "serialized_data/hyfd_task-0.pkl" }

/-- A scheduler state with one running task, used to instantiate the
queue-locality and sweep theorems. -/
def oneRunningState : SchedState :=
  { tasks := [happyTask, happyTask2]
    results := [runningEntry, notStartedEntry]
    execTimes := [none, none]
    active := [{ taskId := "task-1", idx := 0, startTime := 0 }]
    processed := 0
    nextIdx := 1
    globalReached := false }

/-- A success message for `happyTask`. -/
def successMsg : QueueMsg :=
  { taskId := "task-1", status := TaskStatus.Success,
    result := { tag := "fd", payload := some "fd-results" }, execTime := some 5 }

/-- The scheduler loop invariant: the parent's task list keeps its
length, and every entry of `active_processes` points, through its
stored input index, at the task object whose id keys the entry — this
is what makes result-to-index mapping deterministic. -/
def schedInv (numTasks : Nat) (st : SchedState) : Prop :=
  st.tasks.length = numTasks ∧
  ∀ e ∈ st.active, ∃ t, st.tasks.get? e.idx = some t ∧ t.task_id = e.taskId

/-! ## Helper lemmas -/

theorem orElse_self_orElse {α : Type} (a b : Option α) :
    (a <|> (a <|> b)) = (a <|> b) := by
  cases a <;> rfl

theorem foldl_invariant {α β : Type} (P : α → Prop) (f : α → β → α)
    (h : ∀ a b, P a → P (f a b)) :
    ∀ (l : List β) (a : α), P a → P (l.foldl f a) := by
  intro l
  induction l with
  | nil => intro a ha; exact ha
  | cons x xs ih => intro a ha; exact ih (f a x) (h a x ha)

theorem mergeRecord_idem (r p : RunRecord) :
    mergeRecord (mergeRecord r p) p = mergeRecord r p := by
  simp [mergeRecord, orElse_self_orElse]

theorem mergeRecord_task_id_of_none (r p : RunRecord)
    (h : p.task_id = none) : (mergeRecord r p).task_id = r.task_id := by
  simp [mergeRecord, h]

theorem updateRun_idem (tid : String) (patch : RunRecord)
    (h : patch.task_id = none) :
    ∀ db : HistoryDb, updateRun (updateRun db tid patch) tid patch = updateRun db tid patch := by
  intro db
  induction db with
  | nil => rfl
  | cons r rest ih =>
      by_cases hr : r.task_id = some tid
      · simp only [updateRun, hr, if_pos]
        rw [if_pos, mergeRecord_idem]
        rw [mergeRecord_task_id_of_none r patch h, hr]
      · simp only [updateRun, hr, if_neg, ite_false]
        rw [ih]

/-- C9: `mark_success` and `mark_failure` are idempotent — applying
either twice with the same `run_info` leaves the same history as
applying it once, because the second call merges an identical patch
(which never touches `task_id`) into the same first-matching
record. -/
theorem markSuccess_markFailure_idempotent :
    (∀ (db : HistoryDb) (info : SuccessInfo),
      markSuccess (markSuccess db info) info = markSuccess db info)
    ∧ (∀ (db : HistoryDb) (info : FailureInfo),
      markFailure (markFailure db info) info = markFailure db info) := by
  constructor
  · intro db info
    exact updateRun_idem info.task_id (successPatch info) rfl db
  · intro db info
    exact updateRun_idem info.task_id (failurePatch info) rfl db

/-- C5 counterexample: no History Store mutation follows the
write-to-temp-then-rename pattern — already on concrete inputs, the
operations of `add_run`, `update_run`, `mark_success` and
`mark_failure` are a single direct write to the history file, not a
two-step temp write and rename. -/
theorem history_mutation_not_atomic_counterexample :
    ¬ AtomicTempRenameWrite (addRunOps "history.json" [] storedSuccessRecord) "history.json"
    ∧ ¬ AtomicTempRenameWrite (updateRunOps "history.json" [storedSuccessRecord] "task-0" (successPatch ⟨"task-0", 0, 1, TaskStatus.Success, "p", 1⟩)) "history.json"
    ∧ ¬ AtomicTempRenameWrite (markSuccessOps "history.json" [storedSuccessRecord] ⟨"task-0", 0, 1, TaskStatus.Success, "p", 1⟩) "history.json"
    ∧ ¬ AtomicTempRenameWrite (markFailureOps "history.json" [storedSuccessRecord] ⟨"task-0", some "Timeout", some "skip"⟩) "history.json" := by
  refine ⟨?_, ?_, ?_, ?_⟩ <;>
    · rintro ⟨tmp, content, hne, heq⟩
      have hlen := congrArg List.length heq
      simp [addRunOps, updateRunOps, markSuccessOps, markFailureOps, saveDbOps] at hlen

/-- C5 amended: every History Store mutation saves the document with
one direct write of the whole JSON document to the history file
(opened for writing in place); no temporary file and no rename are
involved, so the atomicity the rename pattern would give is absent. -/
theorem history_mutation_single_direct_write :
    ∀ (fn : String) (db : HistoryDb) (r : RunRecord) (tid : String)
      (patch : RunRecord) (sinfo : SuccessInfo) (finfo : FailureInfo),
      addRunOps fn db r = [FileOp.writeFile fn (dumpJson (addRun db r))]
      ∧ updateRunOps fn db tid patch = [FileOp.writeFile fn (dumpJson (updateRun db tid patch))]
      ∧ markSuccessOps fn db sinfo = [FileOp.writeFile fn (dumpJson (markSuccess db sinfo))]
      ∧ markFailureOps fn db finfo = [FileOp.writeFile fn (dumpJson (markFailure db finfo))]
      ∧ ∀ op ∈ addRunOps fn db r ++ updateRunOps fn db tid patch ++
          markSuccessOps fn db sinfo ++ markFailureOps fn db finfo,
          op.isRename = false := by
  intro fn db r tid patch sinfo finfo
  refine ⟨rfl, rfl, rfl, rfl, ?_⟩
  intro op hop
  simp [addRunOps, updateRunOps, markSuccessOps, markFailureOps, saveDbOps] at hop
  rcases hop with h | h | h | h <;> simp [h, FileOp.isRename]

theorem sweep_fold_id (now : Nat) :
    ∀ (l : List ActiveEntry) (st : SchedState) (acc : List String),
      (∀ e ∈ l, now < e.startTime + timeoutOf st.tasks e.idx) →
      l.foldl (sweepStep now) (st, acc) = (st, acc) := by
  intro l
  induction l with
  | nil => intro st acc _; rfl
  | cons e rest ih =>
      intro st acc h
      have he := h e (List.mem_cons_self e rest)
      have hstep : sweepStep now (st, acc) e = (st, acc) := by
        unfold sweepStep
        simp only
        rw [if_neg (by omega)]
      rw [List.foldl_cons, hstep]
      exact ih st acc (fun e' he' => h e' (List.mem_cons_of_mem e he'))

theorem sweepPhase_no_deadline (st : SchedState) (now : Nat)
    (h : ∀ e ∈ st.active, now < e.startTime + timeoutOf st.tasks e.idx) :
    sweepPhase st now = st := by
  unfold sweepPhase
  rw [sweep_fold_id now st.active st [] h]
  simp

/-- C10: `TaskToRun.__init__` turns a missing (`None`) or zero
per-task timeout into the sentinel `10^9` seconds via
`timeout or INFINITY_TIMEOUT`, and the scheduler's deadline sweep
leaves every active task with the sentinel timeout untouched as long
as the clock has not run `10^9` seconds past its launch — a configured
timeout of `0` therefore behaves as unbounded, not as an immediately
expired deadline. -/
theorem timeout_zero_is_unbounded :
    (∀ (id fam name : String) (ps : Params) (df : DataFrame)
      (rows cols : Nat) (h : Option String) (strat : String) (stage : Nat),
      (TaskToRun.make id fam name ps df rows cols h none strat stage).timeout = INFINITY_TIMEOUT
      ∧ (TaskToRun.make id fam name ps df rows cols h (some 0) strat stage).timeout = INFINITY_TIMEOUT)
    ∧ (∀ (st : SchedState) (now : Nat),
      (∀ e ∈ st.active, timeoutOf st.tasks e.idx = INFINITY_TIMEOUT
        ∧ now < e.startTime + INFINITY_TIMEOUT) →
      sweepPhase st now = st) := by
  constructor
  · intro id fam name ps df rows cols h strat stage
    exact ⟨rfl, rfl⟩
  · intro st now h
    refine sweepPhase_no_deadline st now ?_
    intro e he
    rcases h e he with ⟨h1, h2⟩
    rw [h1]
    exact h2

/-- Witness for C10 at concrete inputs. -/
theorem timeout_zero_is_unbounded_witness :
    (TaskToRun.make "t" "fd" "hyfd" [] [] 0 0 none (some 0) "ask" 1).timeout = INFINITY_TIMEOUT
    ∧ sweepPhase oneRunningState 5 = oneRunningState := by
  constructor
  · exact (timeout_zero_is_unbounded.1 "t" "fd" "hyfd" [] [] 0 0 none "ask" 1).2
  · refine timeout_zero_is_unbounded.2 oneRunningState 5 ?_
    intro e he
    have : e = { taskId := "task-1", idx := 0, startTime := 0 } := by
      simpa [oneRunningState] using he
    subst this
    exact ⟨rfl, by decide⟩

theorem find?_split {α : Type} (p : α → Bool) :
    ∀ (l : List α) (a : α), l.find? p = some a →
      ∃ l1 l2, l = l1 ++ a :: l2 ∧ p a = true ∧ ∀ b ∈ l1, p b = false := by
  intro l
  induction l with
  | nil => intro a h; simp [List.find?] at h
  | cons x xs ih =>
      intro a h
      by_cases hp : p x = true
      · rw [List.find?_cons_of_pos _ hp] at h
        refine ⟨[], xs, ?_, ?_, ?_⟩
        · simp [(Option.some.injEq _ _).mp h]
        · rw [← (Option.some.injEq _ _).mp h]; exact hp
        · intro b hb; simp at hb
      · rw [List.find?_cons_of_neg _ (by simpa using hp)] at h
        obtain ⟨l1, l2, heq, hpa, hfail⟩ := ih a h
        refine ⟨x :: l1, l2, by rw [heq]; rfl, hpa, ?_⟩
        intro b hb
        rcases List.mem_cons.mp hb with hb | hb
        · rw [hb]; simpa using hp
        · exact hfail b hb

/-- C6: `get_last_run_for_algo_and_data` returns `None` for a missing
fingerprint; otherwise it returns a record exactly when it matches on
fingerprint, algorithm, params (dict equality), `Success` status,
rows and cols, and the returned record is the last matching one in
insertion order (every record stored after it fails the match);
`None` otherwise. -/
theorem getLastRun_reverse_scan_spec :
    (∀ (algo : String) (ps : Params) (h : String) (rows cols : Nat) (r : RunRecord),
      dedupMatch algo ps h rows cols r = true ↔
        (r.data_hash = some h ∧ r.algorithm = some algo ∧
         optParamsEq r.params ps = true ∧ r.result = some TaskStatus.Success ∧
         r.rows = some rows ∧ r.cols = some cols))
    ∧ (∀ (db : HistoryDb) (algo : String) (ps : Params) (rows cols : Nat),
      getLastRunForAlgoAndData db algo ps none rows cols = none)
    ∧ (∀ (db : HistoryDb) (algo : String) (ps : Params) (h : String)
        (rows cols : Nat) (r : RunRecord),
      getLastRunForAlgoAndData db algo ps (some h) rows cols = some r →
      dedupMatch algo ps h rows cols r = true ∧
      ∃ pre post, db = pre ++ r :: post ∧
        ∀ r' ∈ post, dedupMatch algo ps h rows cols r' = false)
    ∧ (∀ (db : HistoryDb) (algo : String) (ps : Params) (h : String)
        (rows cols : Nat),
      getLastRunForAlgoAndData db algo ps (some h) rows cols = none →
      ∀ r ∈ db, dedupMatch algo ps h rows cols r = false) := by
  refine ⟨?_, ?_, ?_, ?_⟩
  · intro algo ps h rows cols r
    simp [dedupMatch, Bool.and_eq_true, decide_eq_true_eq, and_assoc]
  · intro db algo ps rows cols
    rfl
  · intro db algo ps h rows cols r hfind
    unfold getLastRunForAlgoAndData at hfind
    obtain ⟨l1, l2, heq, hpa, hfail⟩ := find?_split _ _ _ hfind
    refine ⟨hpa, l2.reverse, l1.reverse, ?_, ?_⟩
    · have : db.reverse.reverse = (l1 ++ r :: l2).reverse := by rw [heq]
      rw [List.reverse_reverse] at this
      rw [this]
      simp
    · intro r' hr'
      exact hfail r' (List.mem_reverse.mp hr')
  · intro db algo ps h rows cols hfind r hr
    unfold getLastRunForAlgoAndData at hfind
    have := List.find?_eq_none.mp hfind r (List.mem_reverse.mpr hr)
    simpa using this

/-- Witness for C6 on a one-record history. -/
theorem getLastRun_reverse_scan_spec_witness :
    getLastRunForAlgoAndData [storedSuccessRecord] "hyfd" [] none 4 1 = none
    ∧ dedupMatch "hyfd" [] "hash-1" 4 1 storedSuccessRecord = true
    ∧ ∃ pre post, [storedSuccessRecord] = pre ++ storedSuccessRecord :: post ∧
        ∀ r' ∈ post, dedupMatch "hyfd" [] "hash-1" 4 1 r' = false := by
  have h := getLastRun_reverse_scan_spec.2.2.1 [storedSuccessRecord] "hyfd" []
    "hash-1" 4 1 storedSuccessRecord (by decide)
  exact ⟨getLastRun_reverse_scan_spec.2.1 [storedSuccessRecord] "hyfd" [] 4 1,
    h.1, h.2⟩

theorem ceilToNat_of_bounds (q : ℚ) (n : Nat) (h1 : (n : ℚ) - 1 < q)
    (h2 : q ≤ n) : ceilToNat q = n := by
  unfold ceilToNat
  have hc : ⌈q⌉ = (n : ℤ) := by
    rw [Int.ceil_eq_iff]
    constructor
    · push_cast
      exact h1
    · push_cast
      exact h2
  rw [hc]
  simp

/-- C7: under `shrink_search` with a `Timeout` or `MemoryError`
failure, the rules engine computes `new_rows = ⌈rows · prune_factor⌉`
and retries with the prefix `table[0 : new_rows]` when `new_rows ≥
min_rows`, else skips. -/
theorem shrink_search_prefix_rule :
    ∀ (info : RunInfoForRules) (ts tm : Nat) (pf : ℚ) (mr : Nat)
      (ac : AskChoice) (af : ℚ),
      info.task.strategy = Strategy.shrink_search →
      (info.error_type = TaskStatus.Timeout ∨ info.error_type = TaskStatus.MemoryError) →
      info.task.rows = info.task.data.length →
      handleFailure info ts tm pf mr ac af =
        (if mr ≤ ceilToNat ((info.task.rows : ℚ) * pf) then
          { action := RulesAction.retry
            retry_params := some { new_timeout := none, new_dataframe := some (info.task.data.take (ceilToNat ((info.task.rows : ℚ) * pf))) } }
        else { action := RulesAction.skip, retry_params := none }) := by
  intro info ts tm pf mr ac af hs he hrows
  unfold handleFailure
  simp only [hs, hrows]
  rw [if_neg (by decide), if_neg (by rintro ⟨h1, _⟩; exact absurd h1 (by decide)),
    if_pos ⟨trivial, he⟩]

/-- Witness for C7: 10 rows, factor 7/10, min_rows 2 — retry with the
first 7 rows. -/
theorem shrink_search_prefix_rule_witness :
    handleFailure ⟨TaskStatus.Timeout, shrinkTask⟩ 300 1800 (7/10) 2 AskChoice.skip (7/10)
      = { action := RulesAction.retry
          retry_params := some { new_timeout := none, new_dataframe := some (tenRowTable.take 7) } } := by
  have h := shrink_search_prefix_rule ⟨TaskStatus.Timeout, shrinkTask⟩ 300 1800
    (7/10) 2 AskChoice.skip (7/10) rfl (Or.inl rfl) rfl
  rw [h]
  have hc : ceilToNat (((shrinkTask.rows : ℚ)) * (7/10)) = 7 := by
    refine ceilToNat_of_bounds _ 7 ?_ ?_ <;>
      · show _
        norm_num [shrinkTask, TaskToRun.make]
  rw [hc]
  rfl

/-- C8: under `auto_decision` the rules engine skips whenever the
failed task's stage has reached `MAX_STAGES` (= 3) and only retries
below it; initial tasks start at stage 1 and a retry increments the
stage by exactly 1, so no task created under `auto_decision` ever has
a stage exceeding 3. -/
theorem auto_decision_stage_bound :
    (∀ (df : DataFrame) (hash : Option String) (strat : String)
      (pts : List ProfileTask) (ids : Nat → String) (t : TaskToRun),
      t ∈ createTasksToRun df hash strat pts ids → t.stage = 1)
    ∧ (∀ (info : RunInfoForRules) (ts tm : Nat) (pf : ℚ) (mr : Nat)
        (ac : AskChoice) (af : ℚ),
      info.task.strategy = Strategy.auto_decision →
      (info.error_type = TaskStatus.Timeout ∨ info.error_type = TaskStatus.MemoryError) →
      MAX_STAGES ≤ info.task.stage →
      handleFailure info ts tm pf mr ac af = { action := RulesAction.skip, retry_params := none })
    ∧ (∀ (info : RunInfoForRules) (ts tm : Nat) (pf : ℚ) (mr : Nat)
        (ac : AskChoice) (af : ℚ) (id : String),
      info.task.strategy = Strategy.auto_decision →
      (handleFailure info ts tm pf mr ac af).action = RulesAction.retry →
      info.task.stage < MAX_STAGES
      ∧ (retryTaskOf info.task (handleFailure info ts tm pf mr ac af) id).stage = info.task.stage + 1
      ∧ (retryTaskOf info.task (handleFailure info ts tm pf mr ac af) id).stage ≤ MAX_STAGES) := by
  refine ⟨?_, ?_, ?_⟩
  · intro df hash strat pts ids t ht
    unfold createTasksToRun at ht
    obtain ⟨x, _, rfl⟩ := List.mem_map.mp ht
    rfl
  · intro info ts tm pf mr ac af hs he hstage
    unfold handleFailure
    simp only [hs]
    rw [if_neg (by decide), if_neg (by rintro ⟨h1, _⟩; exact absurd h1 (by decide)),
      if_neg (by rintro ⟨h1, _⟩; exact absurd h1 (by decide)),
      if_pos ⟨trivial, he.elim Or.inr Or.inl⟩, if_pos hstage]
  · intro info ts tm pf mr ac af id hs hretry
    have hstage : info.task.stage < MAX_STAGES := by
      unfold handleFailure at hretry
      simp only [hs] at hretry
      rw [if_neg (by decide), if_neg (by rintro ⟨h1, _⟩; exact absurd h1 (by decide)),
        if_neg (by rintro ⟨h1, _⟩; exact absurd h1 (by decide))] at hretry
      by_cases herr : (True : Prop) ∧ (info.error_type = TaskStatus.MemoryError ∨ info.error_type = TaskStatus.Timeout)
      · rw [if_pos herr] at hretry
        by_cases hst : MAX_STAGES ≤ info.task.stage
        · rw [if_pos hst] at hretry
          exact absurd hretry (by decide)
        · omega
      · rw [if_neg herr, if_neg (by rintro ⟨h1, _⟩; exact absurd h1 (by decide))] at hretry
        exact absurd hretry (by decide)
    exact ⟨hstage, rfl, by
      show info.task.stage + 1 ≤ MAX_STAGES
      omega⟩

/-- Witness for C8: a stage-2 `auto_decision` task retries to stage 3,
and a stage-3 one is skipped; initial profile tasks carry stage 1. -/
theorem auto_decision_stage_bound_witness :
    (handleFailure ⟨TaskStatus.MemoryError, stage2AutoTask⟩ 300 1800 (7/10) 1000 AskChoice.skip (7/10)).action = RulesAction.retry
    ∧ (retryTaskOf stage2AutoTask (handleFailure ⟨TaskStatus.MemoryError, stage2AutoTask⟩ 300 1800 (7/10) 1000 AskChoice.skip (7/10)) "auto-3").stage = 3
    ∧ stage2AutoTask.stage < MAX_STAGES
    ∧ handleFailure ⟨TaskStatus.Timeout, { stage2AutoTask with stage := 3 }⟩ 300 1800 (7/10) 1000 AskChoice.skip (7/10)
        = { action := RulesAction.skip, retry_params := none }
    ∧ ∀ t ∈ createTasksToRun fourRowTable (some "hash-1") Strategy.auto_decision
        [{ family := "fd", algorithm := "hyfd", parameters := [], timeout := none }]
        (fun _ => "id-p"), t.stage = 1 := by
  have hret : (handleFailure ⟨TaskStatus.MemoryError, stage2AutoTask⟩ 300 1800 (7/10) 1000 AskChoice.skip (7/10)).action = RulesAction.retry := rfl
  have h3 := auto_decision_stage_bound.2.2 ⟨TaskStatus.MemoryError, stage2AutoTask⟩
    300 1800 (7/10) 1000 AskChoice.skip (7/10) "auto-3" rfl hret
  have h2 := auto_decision_stage_bound.2.1 ⟨TaskStatus.Timeout, { stage2AutoTask with stage := 3 }⟩
    300 1800 (7/10) 1000 AskChoice.skip (7/10) rfl (Or.inl rfl) (by decide)
  refine ⟨hret, h3.2.1, h3.1, h2, ?_⟩
  intro t ht
  exact auto_decision_stage_bound.1 fourRowTable (some "hash-1") Strategy.auto_decision
    [{ family := "fd", algorithm := "hyfd", parameters := [], timeout := none }]
    (fun _ => "id-p") t ht

theorem ceilToNat_lt_of_le_sub_one (n : Nat) (f : ℚ)
    (h : (n : ℚ) * f ≤ (n : ℚ) - 1) : ceilToNat ((n : ℚ) * f) < n := by
  have hn : 1 ≤ n := by
    by_contra hzero
    have : n = 0 := by omega
    subst this
    norm_num at h
  have hceil : ⌈(n : ℚ) * f⌉ ≤ (n : ℤ) - 1 := by
    calc ⌈(n : ℚ) * f⌉ ≤ ⌈(n : ℚ) - 1⌉ := Int.ceil_le_ceil h
    _ = (n : ℤ) - 1 := by
        rw [show ((n : ℚ) - 1) = (((n : ℤ) - 1 : ℤ) : ℚ) by push_cast; ring,
          Int.ceil_intCast]
  unfold ceilToNat
  omega

/-- The `auto_decision` retry branch of `handle_failure`: below
`MAX_STAGES`, retry with the table pruned to
`⌈len · prune_factor⌉` rows. -/
theorem handleFailure_auto_retry :
    ∀ (info : RunInfoForRules) (ts tm : Nat) (pf : ℚ) (mr : Nat)
      (ac : AskChoice) (af : ℚ),
      info.task.strategy = Strategy.auto_decision →
      (info.error_type = TaskStatus.Timeout ∨ info.error_type = TaskStatus.MemoryError) →
      info.task.stage < MAX_STAGES →
      handleFailure info ts tm pf mr ac af =
        { action := RulesAction.retry
          retry_params := some { new_timeout := none, new_dataframe := some (info.task.data.take (ceilToNat ((info.task.data.length : ℚ) * pf))) } } := by
  intro info ts tm pf mr ac af hs he hst
  unfold handleFailure
  simp only [hs]
  rw [if_neg (by decide), if_neg (by rintro ⟨h1, _⟩; exact absurd h1 (by decide)),
    if_neg (by rintro ⟨h1, _⟩; exact absurd h1 (by decide)),
    if_pos ⟨trivial, he.elim Or.inr Or.inl⟩, if_neg (by omega)]

/-- Inversion of `handle_failure`: a retry decision carrying a new
table always carries a prefix of the failed task's table, cut at
`⌈len · factor⌉` rows for the branch's factor. -/
theorem handleFailure_retry_dataframe_shape :
    ∀ (info : RunInfoForRules) (ts tm : Nat) (pf : ℚ) (mr : Nat)
      (ac : AskChoice) (af : ℚ) (rp : RetryParams) (df' : DataFrame),
      handleFailure info ts tm pf mr ac af = { action := RulesAction.retry, retry_params := some rp } →
      rp.new_dataframe = some df' →
      (df' = info.task.data.take (ceilToNat ((info.task.data.length : ℚ) * pf))
        ∧ (info.task.strategy = Strategy.shrink_search ∨ info.task.strategy = Strategy.auto_decision))
      ∨ (df' = info.task.data.take (ceilToNat ((info.task.data.length : ℚ) * af))
        ∧ info.task.strategy = Strategy.ask) := by
  intro info ts tm pf mr ac af rp df' h hdf
  simp only [handleFailure] at h
  by_cases c1 : info.task.strategy = Strategy.single_run
  · rw [if_pos c1] at h
    injection h with ha _
    exact absurd ha (by decide)
  rw [if_neg c1] at h
  by_cases c2 : info.task.strategy = Strategy.timeout_grow ∧ info.error_type = TaskStatus.Timeout
  · rw [if_pos c2] at h
    by_cases c2' : orTimeoutStep info.task.timeout ts + ts ≤ tm
    · rw [if_pos c2'] at h
      injection h with _ hb
      rw [← Option.some.inj hb] at hdf
      exact absurd hdf (by simp)
    · rw [if_neg c2'] at h
      injection h with ha _
      exact absurd ha (by decide)
  rw [if_neg c2] at h
  by_cases c3 : info.task.strategy = Strategy.shrink_search ∧
      (info.error_type = TaskStatus.Timeout ∨ info.error_type = TaskStatus.MemoryError)
  · rw [if_pos c3] at h
    by_cases c3' : mr ≤ ceilToNat ((info.task.data.length : ℚ) * pf)
    · rw [if_pos c3'] at h
      injection h with _ hb
      rw [← Option.some.inj hb] at hdf
      exact Or.inl ⟨(Option.some.inj hdf).symm, Or.inl c3.1⟩
    · rw [if_neg c3'] at h
      injection h with ha _
      exact absurd ha (by decide)
  rw [if_neg c3] at h
  by_cases c4 : info.task.strategy = Strategy.auto_decision ∧
      (info.error_type = TaskStatus.MemoryError ∨ info.error_type = TaskStatus.Timeout)
  · rw [if_pos c4] at h
    by_cases c4' : MAX_STAGES ≤ info.task.stage
    · rw [if_pos c4'] at h
      injection h with ha _
      exact absurd ha (by decide)
    · rw [if_neg c4'] at h
      injection h with _ hb
      rw [← Option.some.inj hb] at hdf
      exact Or.inl ⟨(Option.some.inj hdf).symm, Or.inr c4.1⟩
  rw [if_neg c4] at h
  by_cases c5 : info.task.strategy = Strategy.ask ∧
      (info.error_type = TaskStatus.MemoryError ∨ info.error_type = TaskStatus.Timeout)
  · rw [if_pos c5] at h
    cases ac with
    | skip =>
        injection h with ha _
        exact absurd ha (by decide)
    | retry =>
        injection h with _ hb
        rw [← Option.some.inj hb] at hdf
        exact absurd hdf (by simp)
    | prune =>
        injection h with _ hb
        rw [← Option.some.inj hb] at hdf
        exact Or.inr ⟨(Option.some.inj hdf).symm, c5.1⟩
  rw [if_neg c5] at h
  injection h with ha _
  exact absurd ha (by decide)

/-- C4 counterexample: a 2-row `auto_decision` task failing at stage 1
with `prune_factor = 7/10` is retried with
`⌈2 · 7/10⌉ = 2` rows — exactly as many rows as its parent, not
strictly fewer. -/
theorem retry_fewer_rows_counterexample :
    (handleFailure ⟨TaskStatus.Timeout, smallAutoTask⟩ 300 1800 (7/10) 1000 AskChoice.skip (7/10)).action = RulesAction.retry
    ∧ (retryTaskOf smallAutoTask (handleFailure ⟨TaskStatus.Timeout, smallAutoTask⟩ 300 1800 (7/10) 1000 AskChoice.skip (7/10)) "retry-1").rows = smallAutoTask.rows
    ∧ ¬ ((retryTaskOf smallAutoTask (handleFailure ⟨TaskStatus.Timeout, smallAutoTask⟩ 300 1800 (7/10) 1000 AskChoice.skip (7/10)) "retry-1").rows < smallAutoTask.rows) := by
  have heval := handleFailure_auto_retry ⟨TaskStatus.Timeout, smallAutoTask⟩ 300 1800
    (7/10) 1000 AskChoice.skip (7/10) rfl (Or.inl rfl) (by decide)
  dsimp only at heval
  have hc : ceilToNat ((smallAutoTask.data.length : ℚ) * (7/10)) = 2 := by
    refine ceilToNat_of_bounds _ 2 ?_ ?_ <;>
      norm_num [smallAutoTask, TaskToRun.make, twoRowTable]
  rw [hc] at heval
  rw [heval]
  refine ⟨rfl, by decide, by decide⟩

/-- C4 amended: every retry produced by `shrink_search`,
`auto_decision` or ask-with-prune replaces the table with a prefix of
the parent's table, so it has **at most** as many rows as its parent;
the count is strictly smaller whenever `len · factor ≤ len - 1`
(equivalently `len ≥ 1/(1-factor)`), but for small tables
`⌈len · factor⌉ = len` is possible and the retry then keeps exactly
the parent's row count. -/
theorem retry_rows_bounds :
    ∀ (info : RunInfoForRules) (ts tm : Nat) (pf : ℚ) (mr : Nat)
      (ac : AskChoice) (af : ℚ) (rp : RetryParams) (df' : DataFrame) (id : String),
      handleFailure info ts tm pf mr ac af = { action := RulesAction.retry, retry_params := some rp } →
      rp.new_dataframe = some df' →
      (df'.length ≤ info.task.data.length
       ∧ (retryTaskOf info.task (handleFailure info ts tm pf mr ac af) id).rows = df'.length)
      ∧ ((info.task.strategy = Strategy.shrink_search ∨ info.task.strategy = Strategy.auto_decision) →
         (info.task.data.length : ℚ) * pf ≤ (info.task.data.length : ℚ) - 1 →
         df'.length < info.task.data.length)
      ∧ (info.task.strategy = Strategy.ask →
         (info.task.data.length : ℚ) * af ≤ (info.task.data.length : ℚ) - 1 →
         df'.length < info.task.data.length) := by
  intro info ts tm pf mr ac af rp df' id h hdf
  have hshape := handleFailure_retry_dataframe_shape info ts tm pf mr ac af rp df' h hdf
  have hrows : (retryTaskOf info.task (handleFailure info ts tm pf mr ac af) id).rows = df'.length := by
    rw [h]
    unfold retryTaskOf createNewTask
    simp only [hdf]
    rfl
  have hask_not_other : info.task.strategy = Strategy.ask →
      ¬ (info.task.strategy = Strategy.shrink_search ∨ info.task.strategy = Strategy.auto_decision) := by
    intro ha hor
    rcases hor with h' | h' <;> rw [ha] at h' <;> exact absurd h' (by decide)
  rcases hshape with ⟨hdf', hstrat⟩ | ⟨hdf', hstrat⟩
  · refine ⟨⟨?_, hrows⟩, ?_, ?_⟩
    · rw [hdf', List.length_take]
      exact min_le_right _ _
    · intro _ hle
      rw [hdf', List.length_take]
      have := ceilToNat_lt_of_le_sub_one info.task.data.length pf hle
      omega
    · intro ha
      exact absurd hstrat (hask_not_other ha)
  · refine ⟨⟨?_, hrows⟩, ?_, ?_⟩
    · rw [hdf', List.length_take]
      exact min_le_right _ _
    · intro hor _
      exact absurd hor (hask_not_other hstrat)
    · intro _ hle
      rw [hdf', List.length_take]
      have := ceilToNat_lt_of_le_sub_one info.task.data.length af hle
      omega

/-- Witness for the amended C4: the 10-row stage-2 `auto_decision`
task is retried with 7 rows — at most, and here strictly fewer
than, its parent's 10. -/
theorem retry_rows_bounds_witness :
    (stage2AutoTask.data.take 7).length ≤ stage2AutoTask.data.length
    ∧ (stage2AutoTask.data.take 7).length < stage2AutoTask.data.length
    ∧ (retryTaskOf stage2AutoTask (handleFailure ⟨TaskStatus.MemoryError, stage2AutoTask⟩ 300 1800 (7/10) 1000 AskChoice.skip (7/10)) "w1").rows = (stage2AutoTask.data.take 7).length := by
  have heval := handleFailure_auto_retry ⟨TaskStatus.MemoryError, stage2AutoTask⟩ 300 1800
    (7/10) 1000 AskChoice.skip (7/10) rfl (Or.inr rfl) (by decide)
  dsimp only at heval
  have hc : ceilToNat ((stage2AutoTask.data.length : ℚ) * (7/10)) = 7 := by
    refine ceilToNat_of_bounds _ 7 ?_ ?_ <;>
      norm_num [stage2AutoTask, TaskToRun.make, tenRowTable]
  rw [hc] at heval
  have hmain := retry_rows_bounds ⟨TaskStatus.MemoryError, stage2AutoTask⟩ 300 1800
    (7/10) 1000 AskChoice.skip (7/10)
    { new_timeout := none, new_dataframe := some (stage2AutoTask.data.take 7) }
    (stage2AutoTask.data.take 7) "w1" heval rfl
  refine ⟨hmain.1.1, ?_, hmain.1.2⟩
  refine hmain.2.1 (Or.inr rfl) ?_
  norm_num [stage2AutoTask, TaskToRun.make, tenRowTable]

/-- C2 (code-bug evidence): two tasks on one worker with a 1-second
global timeout; the first is launched at clock 0 and still running
when the deadline fires at clock 2, the second is never launched.
The shutdown phase records `GlobalTimeout` for the still-Running first
task, but the never-launched second task — absent from
`active_processes`, the only collection the shutdown phase visits —
stays `NotStarted` in the returned outcome list (the final sweep skips
the `Cancelled` downgrade when the global flag is set). -/
theorem global_timeout_leaves_not_started :
    (runTasks [happyTask, happyTask2] false 1 1024 (some 1) 0 allStartLenv
      [⟨0, none, 0⟩, ⟨2, none, 2⟩]).1 = [globalTimeoutEntry, notStartedEntry]
    ∧ notStartedEntry ≠ globalTimeoutEntry := by
  exact ⟨by decide, by decide⟩

/-- C3 (code-bug evidence): after a run in which `happyTask` (profile
parameters `{}`) succeeded, the stored record matches the re-run task
on fingerprint, algorithm name, rows and cols and has status Success —
but its stored `params` carry the `threads` entry injected by the
scheduler and persisted by `_update_tasks_params`, while the fresh
re-run task's params are still `{}`.  The dedup lookup compares the
two dicts for equality, misses, and the dedup pass hands the task to
the Scheduler instead of removing it. -/
theorem dedup_rerun_misses_after_threads_injection :
    getLastRunForAlgoAndData firstRunDb rerunTask.algorithm_name rerunTask.params
      rerunTask.data_hash rerunTask.rows rerunTask.cols = none
    ∧ (checkExistingResults firstRunDb "run-2" (fun _ => true) [rerunTask]).2 = [rerunTask]
    ∧ firstRunDb.length = 1
    ∧ (firstRunDb.headD emptyRecord).result = some TaskStatus.Success
    ∧ (firstRunDb.headD emptyRecord).algorithm = some rerunTask.algorithm_name
    ∧ (firstRunDb.headD emptyRecord).data_hash = rerunTask.data_hash
    ∧ (firstRunDb.headD emptyRecord).rows = some rerunTask.rows
    ∧ (firstRunDb.headD emptyRecord).cols = some rerunTask.cols
    ∧ (firstRunDb.headD emptyRecord).params = some [(threadsKey, 4)]
    ∧ rerunTask.params = []
    ∧ (checkExistingResults firstRunDb "run-2" (fun _ => true)
        [{ rerunTask with params := [(threadsKey, 4)] }]).2 = [] := by
  refine ⟨by decide, by decide, by decide, by decide, by decide, by decide,
    by decide, by decide, by decide, by decide, by decide⟩

theorem activeInsert_mem {l : List ActiveEntry} {e e' : ActiveEntry}
    (h : e' ∈ activeInsert l e) : e' ∈ l ∨ e' = e := by
  unfold activeInsert at h
  by_cases hc : l.any (fun x => x.taskId = e.taskId)
  · rw [if_pos hc] at h
    obtain ⟨x, hx, hxe⟩ := List.mem_map.mp h
    by_cases hid : x.taskId = e.taskId
    · right
      rw [if_pos hid] at hxe
      exact hxe.symm
    · left
      rw [if_neg hid] at hxe
      rw [← hxe]
      exact hx
  · rw [if_neg hc] at h
    rcases List.mem_append.mp h with h | h
    · exact Or.inl h
    · exact Or.inr (List.mem_singleton.mp h)

theorem launchLoop_schedInv (lenv : LaunchEnv) (tts mw n : Nat) :
    ∀ (fuel : Nat) (st : SchedState), schedInv n st →
      schedInv n (launchLoop lenv tts mw n fuel st) := by
  intro fuel
  induction fuel with
  | zero => intro st h; exact h
  | succ fuel ih =>
      intro st h
      rw [launchLoop]
      by_cases hc : st.active.length < mw ∧ st.nextIdx < n
      · rw [if_pos hc]
        rcases hget : st.tasks.get? st.nextIdx with _ | task
        · exfalso
          have hlen := List.get?_eq_none.mp hget
          have hn := h.1
          omega
        · have hinv' : ∀ (task' : TaskToRun), task'.task_id = task.task_id →
              ∀ e ∈ st.active, ∃ t,
                (st.tasks.set st.nextIdx task').get? e.idx = some t ∧ t.task_id = e.taskId := by
            intro task' hid e he
            obtain ⟨t, hget', htid⟩ := h.2 e he
            by_cases hidx : e.idx = st.nextIdx
            · refine ⟨task', ?_, ?_⟩
              · rw [hidx, List.get?_set_eq, hget]
                rfl
              · rw [hid]
                have ht : t = task := by
                  rw [hidx, hget] at hget'
                  exact (Option.some.inj hget').symm
                rw [← htid, ht]
            · exact ⟨t, by rw [List.get?_set_ne _ _ (fun hn => hidx hn.symm)]; exact hget', htid⟩
          dsimp only
          by_cases hok : lenv.startOk st.nextIdx = true
          · rw [if_pos hok]
            refine ih _ ⟨by simp [h.1], ?_⟩
            intro e he
            rcases activeInsert_mem he with he' | he'
            · exact hinv' { task with params := Params.setKey task.params threadsKey tts } rfl e he'
            · refine ⟨{ task with params := Params.setKey task.params threadsKey tts }, ?_, ?_⟩
              · rw [he']
                show (st.tasks.set st.nextIdx _).get? st.nextIdx = _
                rw [List.get?_set_eq, hget]
                rfl
              · rw [he']
          · rw [if_neg hok]
            refine ih _ ⟨by simp [h.1], ?_⟩
            intro e he
            exact hinv' { task with params := Params.setKey task.params threadsKey tts } rfl e he
      · rw [if_neg hc]
        exact h

theorem queuePhase_schedInv (n : Nat) (st : SchedState) (msg : Option QueueMsg)
    (h : schedInv n st) : schedInv n (queuePhase st msg) := by
  unfold queuePhase
  rcases msg with _ | m
  · exact h
  · dsimp only
    rcases hl : activeLookup st.active m.taskId with _ | e
    · simp only [hl]
      exact h
    · simp only [hl]
      refine ⟨h.1, ?_⟩
      intro e' he'
      exact h.2 e' (List.mem_of_mem_filter he')

theorem sweep_fold_frame (now : Nat) :
    ∀ (l : List ActiveEntry) (acc : SchedState × List String),
      (l.foldl (sweepStep now) acc).1.tasks = acc.1.tasks
      ∧ (l.foldl (sweepStep now) acc).1.active = acc.1.active := by
  intro l
  induction l with
  | nil => intro acc; exact ⟨rfl, rfl⟩
  | cons e rest ih =>
      intro acc
      have hstep : (sweepStep now acc e).1.tasks = acc.1.tasks
          ∧ (sweepStep now acc e).1.active = acc.1.active := by
        unfold sweepStep
        by_cases hc : e.startTime + timeoutOf acc.1.tasks e.idx ≤ now
        · rw [if_pos hc]
          by_cases hr : acc.1.resultAt e.idx = runningEntry ∨ acc.1.resultAt e.idx = notStartedEntry
          · rw [if_pos hr]
            exact ⟨rfl, rfl⟩
          · rw [if_neg hr]
            exact ⟨rfl, rfl⟩
        · rw [if_neg hc]
          exact ⟨rfl, rfl⟩
      rw [List.foldl_cons]
      refine ⟨?_, ?_⟩
      · rw [(ih (sweepStep now acc e)).1, hstep.1]
      · rw [(ih (sweepStep now acc e)).2, hstep.2]

theorem sweepPhase_schedInv (n : Nat) (st : SchedState) (now : Nat)
    (h : schedInv n st) : schedInv n (sweepPhase st now) := by
  unfold sweepPhase
  have hframe := sweep_fold_frame now st.active (st, [])
  refine ⟨by rw [hframe.1]; exact h.1, ?_⟩
  intro e he
  have he' : e ∈ st.active := by
    rw [← hframe.2]
    exact List.mem_of_mem_filter he
  obtain ⟨t, hget, hid⟩ := h.2 e he'
  refine ⟨t, ?_, hid⟩
  rw [hframe.1]
  exact hget

theorem mainLoop_schedInv (lenv : LaunchEnv) (tts mw n : Nat)
    (gt : Option Nat) (s0 : Nat) :
    ∀ (envs : List StepEnv) (st : SchedState), schedInv n st →
      schedInv n (mainLoop lenv tts mw n gt s0 envs st) := by
  intro envs
  induction envs with
  | nil => intro st h; exact h
  | cons e rest ih =>
      intro st h
      rw [mainLoop]
      by_cases hp : st.processed < n
      · rw [if_pos hp]
        by_cases hg : globalExpired gt s0 e.nowTop = true
        · rw [if_pos hg]
          exact ⟨h.1, h.2⟩
        · rw [if_neg hg]
          have h1 := launchLoop_schedInv lenv tts mw n n st h
          by_cases hb : (launchLoop lenv tts mw n n st).active.isEmpty = true
              ∧ n ≤ (launchLoop lenv tts mw n n st).nextIdx
          · rw [if_pos hb]
            exact h1
          · rw [if_neg hb]
            exact ih _ (sweepPhase_schedInv n _ e.nowSweep (queuePhase_schedInv n _ e.msg h1))
      · rw [if_neg hp]
        exact h

/-- Result-to-index locality of the queue handler: under the loop
invariant, a delivered message whose task id is active is stored
exactly at that task's input index, and no other slot of
`final_results` changes. -/
theorem queuePhase_locality (n : Nat) (st : SchedState) (m : QueueMsg)
    (e : ActiveEntry) (hinv : schedInv n st)
    (hl : activeLookup st.active m.taskId = some e) :
    (∃ t, st.tasks.get? e.idx = some t ∧ t.task_id = m.taskId)
    ∧ (queuePhase st (some m)).results = st.results.set e.idx m.result
    ∧ (queuePhase st (some m)).execTimes = st.execTimes.set e.idx m.execTime
    ∧ ∀ j, j ≠ e.idx → (queuePhase st (some m)).results.get? j = st.results.get? j := by
  have hmem : e ∈ st.active := List.mem_of_find?_eq_some hl
  have hid : e.taskId = m.taskId := by
    have := List.find?_some hl
    simpa using this
  obtain ⟨t, hget, htid⟩ := hinv.2 e hmem
  have hq : queuePhase st (some m) =
      { st with
        results := st.results.set e.idx m.result
        execTimes := st.execTimes.set e.idx m.execTime
        active := activeErase st.active m.taskId
        processed := st.processed + 1 } := by
    unfold queuePhase
    dsimp only
    simp only [hl]
  refine ⟨⟨t, hget, by rw [htid, hid]⟩, by rw [hq], by rw [hq], ?_⟩
  intro j hj
  rw [hq]
  exact List.get?_set_ne _ _ (fun hn => hj hn.symm)

theorem launchLoop_lengths (lenv : LaunchEnv) (tts mw nT : Nat) :
    ∀ (fuel : Nat) (st : SchedState),
      (launchLoop lenv tts mw nT fuel st).results.length = st.results.length
      ∧ (launchLoop lenv tts mw nT fuel st).execTimes.length = st.execTimes.length := by
  intro fuel
  induction fuel with
  | zero => intro st; exact ⟨rfl, rfl⟩
  | succ fuel ih =>
      intro st
      rw [launchLoop]
      by_cases hc : st.active.length < mw ∧ st.nextIdx < nT
      · rw [if_pos hc]
        rcases st.tasks.get? st.nextIdx with _ | task
        · exact ⟨rfl, rfl⟩
        · dsimp only
          by_cases hok : lenv.startOk st.nextIdx = true
          · rw [if_pos hok]
            refine ⟨?_, ?_⟩
            · rw [(ih _).1]
              simp
            · rw [(ih _).2]
          · rw [if_neg hok]
            refine ⟨?_, ?_⟩
            · rw [(ih _).1]
              simp
            · rw [(ih _).2]
              simp
      · rw [if_neg hc]
        exact ⟨rfl, rfl⟩

theorem queuePhase_lengths (st : SchedState) (msg : Option QueueMsg) :
    (queuePhase st msg).results.length = st.results.length
    ∧ (queuePhase st msg).execTimes.length = st.execTimes.length := by
  unfold queuePhase
  rcases msg with _ | m
  · exact ⟨rfl, rfl⟩
  · dsimp only
    rcases hl : activeLookup st.active m.taskId with _ | e <;> simp [hl]

theorem sweepPhase_lengths (st : SchedState) (now : Nat) :
    (sweepPhase st now).results.length = st.results.length
    ∧ (sweepPhase st now).execTimes.length = st.execTimes.length := by
  unfold sweepPhase
  have := foldl_invariant
    (fun acc : SchedState × List String =>
      acc.1.results.length = st.results.length
      ∧ acc.1.execTimes.length = st.execTimes.length)
    (sweepStep now) ?_ st.active (st, []) ⟨rfl, rfl⟩
  · exact this
  · intro acc e hacc
    unfold sweepStep
    dsimp only
    split_ifs <;> simp [hacc.1, hacc.2]

theorem shutdownGlobal_lengths (st : SchedState) :
    (shutdownGlobal st).results.length = st.results.length
    ∧ (shutdownGlobal st).execTimes.length = st.execTimes.length := by
  unfold shutdownGlobal
  by_cases hg : st.globalReached = true
  · rw [if_pos hg]
    dsimp only
    refine foldl_invariant
      (fun s : SchedState =>
        s.results.length = st.results.length
        ∧ s.execTimes.length = st.execTimes.length)
      _ ?_ st.active st ⟨rfl, rfl⟩
    intro s e hs
    dsimp only
    split_ifs <;> simp [hs.1, hs.2]
  · rw [if_neg hg]
    exact ⟨rfl, rfl⟩

theorem finalCleanup_lengths (st : SchedState) :
    (finalCleanup st).results.length = st.results.length
    ∧ (finalCleanup st).execTimes.length = st.execTimes.length := by
  unfold finalCleanup
  by_cases hg : st.active.isEmpty = true
  · rw [if_pos hg]
    exact ⟨rfl, rfl⟩
  · rw [if_neg hg]
    refine foldl_invariant
      (fun s : SchedState =>
        s.results.length = st.results.length
        ∧ s.execTimes.length = st.execTimes.length)
      _ ?_ st.active st ⟨rfl, rfl⟩
    intro s e hs
    dsimp only
    split_ifs <;> simp [hs.1, hs.2]

theorem finalSweep_lengths (nT : Nat) (st : SchedState) :
    (finalSweep nT st).results.length = st.results.length
    ∧ (finalSweep nT st).execTimes.length = st.execTimes.length := by
  unfold finalSweep
  refine foldl_invariant
    (fun s : SchedState =>
      s.results.length = st.results.length
      ∧ s.execTimes.length = st.execTimes.length)
    _ ?_ (List.range nT) st ⟨rfl, rfl⟩
  intro s i hs
  dsimp only
  split_ifs <;> simp [hs.1, hs.2]

theorem mainLoop_lengths (lenv : LaunchEnv) (tts mw nT : Nat)
    (gt : Option Nat) (s0 : Nat) :
    ∀ (envs : List StepEnv) (st : SchedState),
      (mainLoop lenv tts mw nT gt s0 envs st).results.length = st.results.length
      ∧ (mainLoop lenv tts mw nT gt s0 envs st).execTimes.length = st.execTimes.length := by
  intro envs
  induction envs with
  | nil => intro st; exact ⟨rfl, rfl⟩
  | cons e rest ih =>
      intro st
      rw [mainLoop]
      by_cases hp : st.processed < nT
      · rw [if_pos hp]
        by_cases hg : globalExpired gt s0 e.nowTop = true
        · rw [if_pos hg]
          exact ⟨rfl, rfl⟩
        · rw [if_neg hg]
          by_cases hb : (launchLoop lenv tts mw nT nT st).active.isEmpty = true
              ∧ nT ≤ (launchLoop lenv tts mw nT nT st).nextIdx
          · rw [if_pos hb]
            exact launchLoop_lengths lenv tts mw nT nT st
          · rw [if_neg hb]
            refine ⟨?_, ?_⟩
            · rw [(ih _).1, (sweepPhase_lengths _ _).1, (queuePhase_lengths _ _).1,
                (launchLoop_lengths lenv tts mw nT nT st).1]
            · rw [(ih _).2, (sweepPhase_lengths _ _).2, (queuePhase_lengths _ _).2,
                (launchLoop_lengths lenv tts mw nT nT st).2]
      · rw [if_neg hp]
        exact ⟨rfl, rfl⟩

/-- C1: for every batch and every environment (arbitrary clock
readings, message deliveries, start failures), `run_tasks` returns one
outcome and one duration per input task; an empty batch returns
`([], [])`; the loop invariant — every `active_processes` entry points
at the input task whose id keys it — is preserved by the whole main
loop, and under it a delivered result is stored exactly at its task's
input index, leaving every other slot unchanged, so outcomes are
indexed by input position independently of completion order. -/
theorem runTasks_outcomes_by_input_index :
    (∀ (tasks : List TaskToRun) (tp : Bool) (w ml : Nat) (gt : Option Nat)
      (s0 : Nat) (lenv : LaunchEnv) (envs : List StepEnv),
      (runTasks tasks tp w ml gt s0 lenv envs).1.length = tasks.length
      ∧ (runTasks tasks tp w ml gt s0 lenv envs).2.length = tasks.length)
    ∧ (∀ (tp : Bool) (w ml : Nat) (gt : Option Nat) (s0 : Nat)
        (lenv : LaunchEnv) (envs : List StepEnv),
      runTasks [] tp w ml gt s0 lenv envs = ([], []))
    ∧ (∀ (lenv : LaunchEnv) (tts mw n : Nat) (gt : Option Nat) (s0 : Nat)
        (envs : List StepEnv) (st : SchedState), schedInv n st →
      schedInv n (mainLoop lenv tts mw n gt s0 envs st))
    ∧ (∀ (n : Nat) (st : SchedState) (m : QueueMsg) (e : ActiveEntry),
      schedInv n st → activeLookup st.active m.taskId = some e →
      (∃ t, st.tasks.get? e.idx = some t ∧ t.task_id = m.taskId)
      ∧ (queuePhase st (some m)).results = st.results.set e.idx m.result
      ∧ (queuePhase st (some m)).execTimes = st.execTimes.set e.idx m.execTime
      ∧ ∀ j, j ≠ e.idx → (queuePhase st (some m)).results.get? j = st.results.get? j) := by
  refine ⟨?_, ?_, ?_, ?_⟩
  · intro tasks tp w ml gt s0 lenv envs
    unfold runTasks
    by_cases hz : tasks.length = 0
    · rw [if_pos hz]
      exact ⟨hz.symm, hz.symm⟩
    · rw [if_neg hz]
      unfold runTasksFull
      dsimp only
      constructor
      · rw [(finalSweep_lengths _ _).1, (finalCleanup_lengths _).1,
          (shutdownGlobal_lengths _).1, (mainLoop_lengths _ _ _ _ _ _ _ _).1]
        simp
      · rw [(finalSweep_lengths _ _).2, (finalCleanup_lengths _).2,
          (shutdownGlobal_lengths _).2, (mainLoop_lengths _ _ _ _ _ _ _ _).2]
        simp
  · intro tp w ml gt s0 lenv envs
    rfl
  · intro lenv tts mw n gt s0 envs st h
    exact mainLoop_schedInv lenv tts mw n gt s0 envs st h
  · intro n st m e hinv hl
    exact queuePhase_locality n st m e hinv hl

/-- Witness for C1: in a state with `happyTask` running at input
index 0, its success message is stored at slot 0 and slot 1 is
untouched; and the empty batch returns `([], [])`. -/
theorem runTasks_outcomes_by_input_index_witness :
    (∃ t, oneRunningState.tasks.get? 0 = some t ∧ t.task_id = successMsg.taskId)
    ∧ (queuePhase oneRunningState (some successMsg)).results
        = oneRunningState.results.set 0 successMsg.result
    ∧ (queuePhase oneRunningState (some successMsg)).results.get? 1
        = oneRunningState.results.get? 1
    ∧ runTasks [] false 1 1024 none 0 allStartLenv [] = ([], []) := by
  have hinv : schedInv 2 oneRunningState := by
    refine ⟨rfl, ?_⟩
    intro e he
    have he' : e = { taskId := "task-1", idx := 0, startTime := 0 } := by
      simpa [oneRunningState] using he
    subst he'
    exact ⟨happyTask, rfl, rfl⟩
  have hl : activeLookup oneRunningState.active successMsg.taskId
      = some { taskId := "task-1", idx := 0, startTime := 0 } := by decide
  have h := runTasks_outcomes_by_input_index.2.2.2 2 oneRunningState successMsg
    { taskId := "task-1", idx := 0, startTime := 0 } hinv hl
  exact ⟨h.1, h.2.1, h.2.2.2 1 (by decide),
    runTasks_outcomes_by_input_index.2.1 false 1 1024 none 0 allStartLenv []⟩

end DesbordanteProfiler
